import Mathlib

/-!
Verification of `scripts/hh_fetch.py` (glossary-metrics repository).

This file gives a shallow embedding, in Lean, of the fetch engine of
`scripts/hh_fetch.py`: the backoff/retry helper `request_with_backoff`, the
per-record detail fetcher `get_detail_with_backoff`, the pagination generator
`iter_vacancies`, the record flattener `flatten_item`, and the orchestration
logic of `main` (configuration validation, date-window planning, record loop).

Modelling conventions:
  * JSON-shaped Python values are represented by the inductive `PyVal`
    (None, bool, int, str, list, dict); Python exceptions by `PyErr`.
  * `requests` responses are abstracted by their status code and, where a
    body is read, by an `Option PyVal` (`Option.none` = `resp.json()` raises).
  * The network is abstracted by a function from attempt/page index to the
    response delivered for that request; each embedded function also reports
    how many requests it issued and which `time.sleep` backoffs it performed.
  * `dt.date` values are represented by their proleptic-Gregorian ordinal
    (`dt.date.toordinal`), an `Int`; `dt.timedelta(days = n)` is addition
    of `n`.  For instance 2025-09-01 has ordinal 739495.
  * Machine floats only occur as the backoff accumulator, whose value is
    always one of 1.0, 2.0, 4.0, 8.0, 16.0, 30.0 — all exactly representable
    and exactly computed by `min (b * 2) 30`, so it is embedded as `Nat`.
-/

namespace HHFetch

/-- JSON-shaped Python values, as handled by `scripts/hh_fetch.py`.
`dict` keeps the key/value pairs in insertion order, as Python dicts do. -/
inductive PyVal where
  | none
  | bool (b : Bool)
  | int (n : Int)
  | str (s : String)
  | list (xs : List PyVal)
  | dict (kvs : List (String × PyVal))

/-- The Python exceptions that the embedded fragments of `hh_fetch.py` can
raise (uncaught exceptions of the modelled code paths). -/
inductive PyErr where
  | nameError (name : String)
  | attributeError (attr : String)
  | typeError
  | jsonDecodeError
deriving DecidableEq

/-- Python truthiness (`bool(v)`) for the embedded value types. -/
def pyTruthy : PyVal → Bool
  | .none => false
  | .bool b => b
  | .int n => n != 0
  | .str s => s != ""
  | .list xs => !xs.isEmpty
  | .dict kvs => !kvs.isEmpty

/-- `a or b` for Python values: `b` when `a` is falsy, else `a`. -/
def pyOr (a b : PyVal) : PyVal := if pyTruthy a then a else b

mutual

/-- `repr(v)` (Python).  String quoting is approximated with single quotes;
only `flatten_item`'s `str(...)` of a non-scalar skill name ever reaches the
container cases. -/
def pyRepr : PyVal → String
  | .none => "None"
  | .bool true => "True"
  | .bool false => "False"
  | .int n => toString n
  | .str s => "\x27" ++ s ++ "\x27"
  | .list xs => "[" ++ String.intercalate ", " (pyReprElems xs) ++ "]"
  | .dict kvs => "\x7b" ++ String.intercalate ", " (pyReprPairs kvs) ++ "\x7d"

/-- `repr` of each element of a Python list, in order. -/
def pyReprElems : List PyVal → List String
  | [] => []
  | x :: xs => pyRepr x :: pyReprElems xs

/-- `'key': repr(value)` for each entry of a Python dict, in order. -/
def pyReprPairs : List (String × PyVal) → List String
  | [] => []
  | (k, v) :: kvs => ("\x27" ++ k ++ "\x27: " ++ pyRepr v) :: pyReprPairs kvs

end

/-- `str(v)` (Python): identity on strings, `repr` otherwise. -/
def pyStr : PyVal → String
  | .str s => s
  | v => pyRepr v

/-- Strip leading whitespace from a character list. -/
def stripLeft (cs : List Char) : List Char := cs.dropWhile Char.isWhitespace

/-- Python `s.strip()`: remove leading and trailing whitespace. -/
def pyStrip (s : String) : String :=
  String.mk ((stripLeft s.data).reverse |> stripLeft).reverse

/-- Split a character list on `','` (Python `s.split(",")`: no collapsing,
an empty input gives one empty field). -/
def splitCommaChars : List Char → List (List Char)
  | [] => [[]]
  | c :: cs =>
    if c = ',' then [] :: splitCommaChars cs
    else
      match splitCommaChars cs with
      | [] => [[c]]
      | g :: gs => (c :: g) :: gs

/-- Python `s.split(",")`. -/
def pySplitComma (s : String) : List String :=
  (splitCommaChars s.data).map fun cs => String.mk cs

/-- The numeric value of a decimal digit sequence; `Option.none` when empty
or containing a non-digit. -/
def digitsToNat : List Char → Option Nat
  | [] => Option.none
  | [c] => if c.isDigit then some (c.toNat - '0'.toNat) else Option.none
  | c :: cs =>
    if c.isDigit then
      (digitsToNat cs).map fun n => (c.toNat - '0'.toNat) * 10 ^ cs.length + n
    else Option.none

/-- Python `int(s)` for a string: surrounding whitespace allowed, optional
sign, then a non-empty digit sequence; `Option.none` = `ValueError`.
(Underscore digit grouping, accepted by CPython, is not modelled.) -/
def pyStrToInt (s : String) : Option Int :=
  match stripLeft ((stripLeft s.data).reverse) |>.reverse with
  | '+' :: rest => (digitsToNat rest).map Int.ofNat
  | '-' :: rest => (digitsToNat rest).map fun n => -(n : Int)
  | rest => (digitsToNat rest).map Int.ofNat

/-- `v.get(k)` / `v.get(k, default)` semantics on a dict's pair list. -/
def pyDictGet (kvs : List (String × PyVal)) (k : String) (dflt : PyVal) : PyVal :=
  (List.lookup k kvs).getD dflt

/-- `v.get(k)` on an arbitrary value: `AttributeError` unless `v` is a dict
(missing key gives `None`). -/
def pyDotGet (v : PyVal) (k : String) : Except PyErr PyVal :=
  match v with
  | .dict kvs => .ok (pyDictGet kvs k .none)
  | _ => .error (.attributeError "get")

/-- `int(v)` (Python), partially: defined on ints, bools and decimal string
literals (the shapes a JSON `pages` field can take in this embedding);
`Option.none` stands for `TypeError`/`ValueError`. -/
def pyToInt : PyVal → Option Int
  | .int n => some n
  | .bool b => some (if b then 1 else 0)
  | .str s => pyStrToInt s
  | _ => Option.none

/-! ## `request_with_backoff` (hh_fetch.py lines 116-129)

```python
def request_with_backoff(url, params, headers, max_retries=5):
    backoff = 1.0
    for attempt in range(max_retries):
        resp = requests.get(url, params=params, headers=headers, timeout=30)
        if resp.status_code == 200:
            return resp
        if resp.status_code in (429, 500, 502, 503, 504):
            time.sleep(backoff)
            backoff = min(backoff * 2, 30.0)
            continue
        resp.raise_for_status()
    # last try
    resp.raise_for_status()
    return resp
```

The network is abstracted by `statuses : Nat → Nat`, giving the HTTP status
code delivered for attempt `i` (0-based). -/

/-- The retry whitelist of `request_with_backoff` / `get_detail_with_backoff`:
`resp.status_code in (429, 500, 502, 503, 504)`. -/
def retryableStatus (s : Nat) : Bool :=
  s == 429 || s == 500 || s == 502 || s == 503 || s == 504

/-- `requests.Response.raise_for_status()` raises exactly for 4xx/5xx. -/
def raisesForStatus (s : Nat) : Bool := 400 ≤ s && s < 600

/-- How a call of `request_with_backoff` ends. -/
inductive RWBOutcome where
  /-- The function returned a response with this status code. -/
  | returned (status : Nat)
  /-- `resp.raise_for_status()` raised `HTTPError` for this status code. -/
  | raised (status : Nat)
  /-- `max_retries = 0`: the `for` body never ran, so the final
  `resp.raise_for_status()` hits the unbound local `resp`
  (`UnboundLocalError`). -/
  | unboundLocal
deriving DecidableEq

/-- Observable behaviour of one `request_with_backoff` call: number of
HTTP requests issued, the `time.sleep` backoff durations in order, and the
outcome. -/
structure RWBRun where
  requests : Nat
  sleeps : List Nat
  outcome : RWBOutcome
deriving DecidableEq

/-- The final `resp.raise_for_status()` after the loop: `resp` is the last
response received, or unbound when no iteration ran. -/
def rwbAfterLoop : Option Nat → RWBOutcome
  | Option.none => .unboundLocal
  | Option.some s => if raisesForStatus s then .raised s else .returned s

/-- The `for attempt in range(max_retries)` loop of `request_with_backoff`.
`remaining` counts the iterations left, `attempt` the current 0-based attempt
index, `backoff` the current backoff value, `resp` the last response's status
(the Python local `resp`, unbound at entry). -/
def rwbLoop (statuses : Nat → Nat) :
    (remaining attempt backoff : Nat) → (resp : Option Nat) → RWBRun
  | 0, _, _, resp => ⟨0, [], rwbAfterLoop resp⟩
  | r + 1, attempt, backoff, _ =>
    let s := statuses attempt
    if s = 200 then ⟨1, [], .returned 200⟩
    else if retryableStatus s then
      let rest := rwbLoop statuses r (attempt + 1) (min (backoff * 2) 30) (Option.some s)
      ⟨rest.requests + 1, backoff :: rest.sleeps, rest.outcome⟩
    else if raisesForStatus s then ⟨1, [], .raised s⟩
    else
      -- non-200 status outside 400..599: `raise_for_status()` is a no-op and
      -- the loop body falls through to the next attempt without sleeping
      let rest := rwbLoop statuses r (attempt + 1) backoff (Option.some s)
      ⟨rest.requests + 1, rest.sleeps, rest.outcome⟩

/-- `request_with_backoff` (the Python default for `max_retries` is 5). -/
def requestWithBackoff (statuses : Nat → Nat) (maxRetries : Nat) : RWBRun :=
  rwbLoop statuses maxRetries 0 1 Option.none

/-! ## `get_detail_with_backoff` (hh_fetch.py lines 132-148)

Abstraction: `responses i = (status, body)` for attempt `i`, where
`body : Option PyVal` is the result of `r.json()` (`Option.none` = the parse
raises, which the code catches, returning `None`). -/

/-- The `for _ in range(max_retries)` loop of `get_detail_with_backoff`.
Returns the Python return value (`None` = `Option.none`), the number of
requests issued and the backoff sleeps. -/
def gdLoop (responses : Nat → Nat × Option PyVal) :
    (remaining attempt backoff : Nat) → Option PyVal × Nat × List Nat
  | 0, _, _ => (Option.none, 0, [])
  | r + 1, attempt, backoff =>
    let s := (responses attempt).1
    if s = 200 then ((responses attempt).2, 1, [])
    else if retryableStatus s then
      let rest := gdLoop responses r (attempt + 1) (min (backoff * 2) 30)
      (rest.1, rest.2.1 + 1, backoff :: rest.2.2)
    else
      -- other errors: give up for this vacancy only (returns None, no raise)
      (Option.none, 1, [])

/-- `get_detail_with_backoff` (default `max_retries` is 5): never raises;
every failure path returns `None`. -/
def getDetailWithBackoff (responses : Nat → Nat × Option PyVal) (maxRetries : Nat) :
    Option PyVal × Nat × List Nat :=
  gdLoop responses maxRetries 0 1

/-! ## `iter_vacancies`: the per-page request parameters (hh_fetch.py lines 172-188)

Each loop iteration first builds the `params` dict (lines 172-188) and only
then issues the request (line 190).  The dict insertions for `text`,
`date_from` and `date_to` are guarded by Python truthiness of the
corresponding function parameters, but `args_employment` and `args_schedule`
are *free names* of `iter_vacancies`: they are resolved dynamically against
the module's global scope (and then the builtins) when line 184 executes.
The embedding therefore threads an explicit `scope` for those two names. -/

/-- The names bound at module scope of `scripts/hh_fetch.py` by the time
`iter_vacancies` runs: the imports (lines 25-36), the module constant
(line 44) and the module-level `def`s. -/
def moduleGlobalNames : List String :=
  ["annotations", "argparse", "csv", "os", "sys", "time", "dt",
   "Dict", "Any", "Iterable", "List", "Optional", "requests",
   "API_URL", "parse_args", "ensure_output_path", "request_with_backoff",
   "get_detail_with_backoff", "iter_vacancies", "flatten_item", "main"]

/-- The module scope of `scripts/hh_fetch.py`, as a dynamic name lookup.
Looking up a name bound at module level succeeds (the bound object itself —
a module, function or string — is irrelevant to the claims and is
represented opaquely by its name); any other name raises `NameError`
(no Python builtin is called `args_employment` or `args_schedule` either, so
the builtins fallback of the real lookup is dropped). -/
def hhModuleScope (n : String) : Except PyErr PyVal :=
  if n ∈ moduleGlobalNames then .ok (.str n) else .error (.nameError n)

/-- Lines 172-188 of `iter_vacancies`: build the `params` dict for one page
request.  `scope` resolves the free names `args_employment` and
`args_schedule`; in the shipped module this is `hhModuleScope`, where both
lookups fail (they are locals of `main`, hh_fetch.py lines 289-294). -/
def iterVacanciesBuildParams (scope : String → Except PyErr PyVal)
    (queryText area : String) (perPage : Int) (page : Nat)
    (dateFrom dateTo : Option String) : Except PyErr (List (String × PyVal)) := do
  let params : List (String × PyVal) :=
    [("area", .str area), ("per_page", .int perPage), ("page", .int (page : Int))]
  let params := if pyStrip queryText ≠ "" then params ++ [("text", .str (pyStrip queryText))] else params
  let params :=
    match dateFrom with
    | Option.some s => if s ≠ "" then params ++ [("date_from", .str s)] else params
    | Option.none => params
  let params :=
    match dateTo with
    | Option.some s => if s ≠ "" then params ++ [("date_to", .str s)] else params
    | Option.none => params
  -- `if args_employment:` — resolving the name precedes the truthiness test
  let emp ← scope "args_employment"
  let params := if pyTruthy emp then params ++ [("employment", emp)] else params
  -- `if args_schedule:`
  let sch ← scope "args_schedule"
  let params := if pyTruthy sch then params ++ [("schedule", sch)] else params
  pure params

/-! ## `iter_vacancies`: the per-area pagination loop (hh_fetch.py lines 166-205)

The loop for one element of `area_ids`.  Abstraction: `server page` is the
body of the 200 response for that page, as `Option PyVal` (`Option.none` =
`resp.json()` on line 191 raises, which is uncaught).  This models the loop
*after* the free filter names resolve (see `iterVacanciesBuildParams`; in the
shipped module the resolution itself fails, which is settled separately) and
abstracts `request_with_backoff` as returning a 200 response, since the
claims about the loop concern its request/emission discipline. -/

/-- `int(data.get("pages", 0))` wrapped in `try/except` (lines 193-197):
a missing key defaults to `0`; a non-dict `data` raises inside the `try`; a
non-numeric value raises in `int(...)`; every exception is caught and the
total becomes `0`. -/
def totalPagesOf (data : PyVal) : Int :=
  match data with
  | .dict kvs =>
    match List.lookup "pages" kvs with
    | Option.none => 0
    | Option.some v => (pyToInt v).getD 0
  | _ => 0

/-- `for item in data.get("items", []): yield item` (lines 199-200):
`AttributeError` when `data` is not a dict (uncaught — outside the `try`);
iterating a string yields its characters and iterating a dict its keys;
iterating any other non-list raises `TypeError`. -/
def itemsOf (data : PyVal) : Except PyErr (List PyVal) :=
  match data with
  | .dict kvs =>
    match pyDictGet kvs "items" (.list []) with
    | .list xs => .ok xs
    | .str s => .ok (s.toList.map fun c => PyVal.str (String.singleton c))
    | .dict kvs2 => .ok (kvs2.map fun kv => PyVal.str kv.1)
    | _ => .error .typeError
  | _ => .error (.attributeError "get")

/-- `max_pages is not None and page > max_pages` (line 170). -/
def capExceeded (maxPages : Option Int) (page : Nat) : Bool :=
  match maxPages with
  | Option.none => false
  | Option.some m => decide ((page : Int) > m)

/-- Observable behaviour of the pagination loop for one area: requests
issued, items yielded (in order, up to any fatal error), and the uncaught
exception if one occurred. -/
structure AreaRun where
  requests : Nat
  emitted : List PyVal
  err : Option PyErr

/-- The pagination loop from the second iteration on: `total_pages_for_area`
is already set to `T` and stays fixed (lines 193-197 only assign on the first
iteration).  Loop shape per iteration: cap check (line 170), request + parse
(lines 190-191), yield the page's items (199-200), `page += 1` and stop as
soon as `page ≥ T` (202-204). -/
def iterTail (server : Nat → Option PyVal) (maxPages : Option Int) (T : Int)
    (page : Nat) : AreaRun :=
  if capExceeded maxPages page then ⟨0, [], Option.none⟩
  else
    match server page with
    | Option.none => ⟨1, [], Option.some .jsonDecodeError⟩
    | Option.some data =>
      match itemsOf data with
      | .error e => ⟨1, [], Option.some e⟩
      | .ok its =>
        if (page : Int) + 1 ≥ T then ⟨1, its, Option.none⟩
        else
          let rest := iterTail server maxPages T (page + 1)
          ⟨rest.requests + 1, its ++ rest.emitted, rest.err⟩
termination_by (T - (page : Int)).toNat
decreasing_by
  simp_wf
  omega

/-- The whole per-area loop, starting at `page = 0` with
`total_pages_for_area = None`: the first iteration fixes
`T = int(data.get("pages", 0))` from the page-0 response. -/
def fetchArea (server : Nat → Option PyVal) (maxPages : Option Int) : AreaRun :=
  if capExceeded maxPages 0 then ⟨0, [], Option.none⟩
  else
    match server 0 with
    | Option.none => ⟨1, [], Option.some .jsonDecodeError⟩
    | Option.some data =>
      let T := totalPagesOf data
      match itemsOf data with
      | .error e => ⟨1, [], Option.some e⟩
      | .ok its =>
        if (0 : Int) + 1 ≥ T then ⟨1, its, Option.none⟩
        else
          let rest := iterTail server maxPages T 1
          ⟨rest.requests + 1, its ++ rest.emitted, rest.err⟩

/-- A well-formed page body: `pages = T`, `items` = the given list. -/
def mkPage (T : Int) (items : List PyVal) : PyVal :=
  .dict [("pages", .int T), ("items", .list items)]

/-! ## `flatten_item` (hh_fetch.py lines 208-247) -/

/-- `", ".join([str(x.get("name")) for x in xs if isinstance(x, dict)])`
(lines 221 and 224): keep the dict elements, take each one's `name` value
(`None` when missing), render with `str(...)`, join with `", "`. -/
def namesJoin (xs : List PyVal) : String :=
  String.intercalate ", "
    (xs.filterMap fun x =>
      match x with
      | .dict kvs => some (pyStr (pyDictGet kvs "name" .none))
      | _ => Option.none)

/-- Lines 214-224 of `flatten_item`: the three `detail_*` values.
`detail_desc_html` is the raw `detail.get("description")` value (a `PyVal`,
possibly `None`); the two join results are Python `Optional[str]`, still
`None` when `detail` is absent/falsy or when the corresponding field is not
a list after `or []`. -/
def detailFields (detail : Option PyVal) :
    Except PyErr (PyVal × Option String × Option String) :=
  match detail with
  | Option.none => .ok (.none, Option.none, Option.none)
  | Option.some d =>
    if pyTruthy d then do
      let desc ← pyDotGet d "description"
      let ks := pyOr (← pyDotGet d "key_skills") (.list [])
      let skills : Option String :=
        match ks with
        | .list xs => some (namesJoin xs)
        | _ => Option.none
      let pr := pyOr (← pyDotGet d "professional_roles") (.list [])
      let roles : Option String :=
        match pr with
        | .list xs => some (namesJoin xs)
        | _ => Option.none
      pure (desc, skills, roles)
    else .ok (.none, Option.none, Option.none)

/-- A Python `Optional[str]` as a dict value. -/
def optStrVal : Option String → PyVal
  | Option.none => .none
  | Option.some s => .str s

/-- `flatten_item(item, detail)`: the returned dict, keys in insertion
order.  Every `.get` is `AttributeError` when its receiver is not a dict
(after the `or {}` defaults of lines 209-212, 239-240). -/
def flattenItem (item : PyVal) (detail : Option PyVal) :
    Except PyErr (List (String × PyVal)) := do
  let salary := pyOr (← pyDotGet item "salary") (.dict [])
  let employer := pyOr (← pyDotGet item "employer") (.dict [])
  let area := pyOr (← pyDotGet item "area") (.dict [])
  let snippet := pyOr (← pyDotGet item "snippet") (.dict [])
  let dfields ← detailFields detail
  let idv ← pyDotGet item "id"
  let namev ← pyDotGet item "name"
  let urlv ← pyDotGet item "alternate_url"
  let employerId ← pyDotGet employer "id"
  let employerName ← pyDotGet employer "name"
  let areaId ← pyDotGet area "id"
  let areaName ← pyDotGet area "name"
  let salaryFrom ← pyDotGet salary "from"
  let salaryTo ← pyDotGet salary "to"
  let salaryCurrency ← pyDotGet salary "currency"
  let salaryGross ← pyDotGet salary "gross"
  let publishedAt ← pyDotGet item "published_at"
  let schedulev ← pyDotGet (pyOr (← pyDotGet item "schedule") (.dict [])) "name"
  let employmentv ← pyDotGet (pyOr (← pyDotGet item "employment") (.dict [])) "name"
  let requirementv ← pyDotGet snippet "requirement"
  let responsibilityv ← pyDotGet snippet "responsibility"
  pure
    [("id", idv), ("name", namev), ("alternate_url", urlv),
     ("employer_id", employerId), ("employer_name", employerName),
     ("area_id", areaId), ("area_name", areaName),
     ("salary_from", salaryFrom), ("salary_to", salaryTo),
     ("salary_currency", salaryCurrency), ("salary_gross", salaryGross),
     ("published_at", publishedAt),
     ("schedule", schedulev), ("employment", employmentv),
     ("requirement", requirementv), ("responsibility", responsibilityv),
     ("detail_description_html", dfields.1),
     ("detail_key_skills", optStrVal dfields.2.1),
     ("detail_professional_roles", optStrVal dfields.2.2)]

/-- The `fieldnames` list of `main` (hh_fetch.py lines 259-279): the fixed
CSV column order. -/
def fieldnames : List String :=
  ["id", "name", "alternate_url", "employer_id", "employer_name",
   "area_id", "area_name", "salary_from", "salary_to", "salary_currency",
   "salary_gross", "published_at", "schedule", "employment",
   "requirement", "responsibility", "detail_description_html",
   "detail_key_skills", "detail_professional_roles"]

/-! ## `main`: date windows (hh_fetch.py lines 309-319)

```python
windows = []
if start_date and end_date:
    wd = max(1, int(args.window_days))
    cur = start_date
    while cur <= end_date:
        w_end = min(cur + dt.timedelta(days=wd - 1), end_date)
        windows.append((date_str(cur), date_str(w_end)))
        cur = w_end + dt.timedelta(days=1)
```

Dates are embedded as their `toordinal` integers.  The source computes
`wd = max(1, ...)` once before the loop; since `wd` never changes inside
the loop, the embedding applies the identical clamp at each iteration. -/

/-- The `while cur <= end_date` loop of the window builder. -/
def windowsLoop (endD wdRaw : Int) (cur : Int) : List (Int × Int) :=
  if cur ≤ endD then
    let wEnd := min (cur + max 1 wdRaw - 1) endD
    (cur, wEnd) :: windowsLoop endD wdRaw (wEnd + 1)
  else []
termination_by (endD + 1 - cur).toNat
decreasing_by
  simp_wf
  omega

/-- The window planner for the case where both bounds are present
(`if start_date and end_date:` branch, lines 311-317). -/
def buildWindows (startD endD windowDays : Int) : List (Int × Int) :=
  windowsLoop endD windowDays startD

/-! ## `main`: configuration validation and the record loop
(hh_fetch.py lines 250-337) -/

/-- `[a.strip() for a in args.areas.split(",") if a.strip()]` (line 254). -/
def parseAreas (s : String) : List String :=
  ((pySplitComma s).map fun a => pyStrip a).filter fun a => a ≠ ""

/-- Python truthiness of an `Optional[str]`. -/
def truthyStrOpt : Option String → Bool
  | Option.none => false
  | Option.some s => s != ""

/-- `if args.details and item.get("id"):` then
`get_detail_with_backoff(str(item.get("id")), ...)` else `None`
(lines 332-335).  `fetch` abstracts `get_detail_with_backoff`'s return
value per vacancy id (it is total: the fetcher never raises). -/
def itemDetail (details : Bool) (fetch : String → Option PyVal) (item : PyVal) :
    Except PyErr (Option PyVal) :=
  if details then do
    let idv ← pyDotGet item "id"
    if pyTruthy idv then pure (fetch (pyStr idv)) else pure Option.none
  else pure Option.none

/-- The record loop of `main` (lines 321-337), for one stream of yielded
items: per item, decide and perform detail enrichment, flatten, append the
row, `total += 1`.  Returns the rows in order and the final `total`. -/
def processItems (details : Bool) (fetch : String → Option PyVal) :
    List PyVal → Except PyErr (List (List (String × PyVal)) × Nat)
  | [] => .ok ([], 0)
  | item :: rest => do
    let dOpt ← itemDetail details fetch item
    let row ← flattenItem item dOpt
    let (rows, total) ← processItems details fetch rest
    pure (row :: rows, total + 1)

/-- Observable behaviour of a `main` run in this embedding:
`exitCode = some c` models `sys.exit(c)`, `requests` the number of page
requests issued, `emitted` the raw records collected. -/
structure MainResult where
  exitCode : Option Nat
  requests : Nat
  emitted : List PyVal

/-- The `for area in area_ids` loop of `iter_vacancies` (line 166): run the
pagination loop for each area in order, stopping at the first uncaught
exception. -/
def runAreas (server : String → Nat → Option PyVal) (maxPages : Option Int) :
    List String → Nat × List PyVal × Option PyErr
  | [] => (0, [], Option.none)
  | a :: rest =>
    let r := fetchArea (server a) maxPages
    match r.err with
    | Option.some e => (r.requests, r.emitted, Option.some e)
    | Option.none =>
      let (n, its, err) := runAreas server maxPages rest
      (r.requests + n, r.emitted ++ its, err)

/-- The orchestration skeleton of `main` relevant to configuration errors
(lines 254-257 and 296-299), specialised to the single-window case (no date
bounds pass validation unchanged, giving `windows = [(None, None)]`), with
detail enrichment off and the free-filter-name resolution of
`iter_vacancies` taken as succeeded (see `iterVacanciesBuildParams`).
Both `sys.exit(2)` paths run before any request is issued and before any
record is collected. -/
def mainModel (server : String → Nat → Option PyVal) (maxPages : Option Int)
    (areasArg : String) (lastDays : Option Int)
    (dateFrom dateTo : Option String) : MainResult :=
  let areaIds := parseAreas areasArg
  if areaIds.isEmpty then ⟨Option.some 2, 0, []⟩
  else if lastDays.isSome && (truthyStrOpt dateFrom || truthyStrOpt dateTo) then
    ⟨Option.some 2, 0, []⟩
  else
    let (n, its, _err) := runAreas server maxPages areaIds
    ⟨Option.none, n, its⟩

/-! # Lemmas about `request_with_backoff` -/

/-- A status on the retry whitelist is a 4xx/5xx status. -/
theorem retryable_raises {s : Nat} (h : retryableStatus s = true) :
    raisesForStatus s = true := by
  simp only [retryableStatus, Bool.or_eq_true, beq_iff_eq] at h
  rcases h with ((((h | h) | h) | h) | h) <;> subst h <;> decide

/-- Once `resp` is bound, the loop cannot end with `UnboundLocalError`. -/
theorem rwbLoop_outcome_ne_unbound (statuses : Nat → Nat) :
    ∀ (r attempt backoff s0 : Nat),
      (rwbLoop statuses r attempt backoff (Option.some s0)).outcome ≠ .unboundLocal := by
  intro r
  induction r with
  | zero =>
    intro attempt backoff s0
    simp only [rwbLoop, rwbAfterLoop]
    split <;> simp
  | succ r ih =>
    intro attempt backoff s0
    simp only [rwbLoop]
    split
    · simp
    · split
      · exact ih (attempt + 1) (min (backoff * 2) 30) (statuses attempt)
      · split
        · simp
        · exact ih (attempt + 1) backoff (statuses attempt)

/-- The doubling-and-capping schedule of backoff sleeps, starting at `b`,
for `r` retried attempts. -/
def sleepsFrom (b : Nat) : Nat → List Nat
  | 0 => []
  | r + 1 => b :: sleepsFrom (min (b * 2) 30) r

/-- Doubling a capped power of two stays a capped power of two. -/
theorem capDouble_pow (k : Nat) : min (min (2 ^ k) 30 * 2) 30 = min (2 ^ (k + 1)) 30 := by
  rcases le_or_lt 30 (2 ^ k) with h | h
  · have h2 : 30 ≤ 2 ^ (k + 1) := le_trans h (Nat.pow_le_pow_right (by norm_num) (by omega))
    omega
  · have h2 : 2 ^ (k + 1) = 2 ^ k * 2 := by ring
    omega

/-- The sleep schedule starting at `2^k` capped is the capped geometric list. -/
theorem sleepsFrom_pow : ∀ (m k : Nat),
    sleepsFrom (min (2 ^ k) 30) m = (List.range m).map fun i => min (2 ^ (k + i)) 30 := by
  intro m
  induction m with
  | zero => intro k; simp [sleepsFrom]
  | succ m ih =>
    intro k
    rw [sleepsFrom, capDouble_pow, ih (k + 1), List.range_succ_eq_map]
    simp only [List.map_cons, List.map_map, Nat.add_zero]
    congr 1
    apply List.map_congr_left
    intro i _
    simp only [Function.comp_apply]
    congr 2
    omega

/-- A run of the loop on all-retryable statuses: one request and one sleep
per remaining attempt, then the last retryable response survives the loop. -/
theorem rwbLoop_all_retryable (statuses : Nat → Nat) :
    ∀ (r attempt b s0 : Nat),
      (∀ i, i < r → retryableStatus (statuses (attempt + i)) = true) →
      rwbLoop statuses r attempt b (Option.some s0) =
        ⟨r, sleepsFrom b r,
         rwbAfterLoop (Option.some (if r = 0 then s0 else statuses (attempt + r - 1)))⟩ := by
  intro r
  induction r with
  | zero => intro attempt b s0 _; simp [rwbLoop, sleepsFrom]
  | succ r ih =>
    intro attempt b s0 hall
    have h0 : retryableStatus (statuses attempt) = true := by
      have h := hall 0 (Nat.succ_pos r); simpa using h
    have hne : ¬ statuses attempt = 200 := by
      intro h; rw [h] at h0; exact absurd h0 (by decide)
    have harg : (if r = 0 then statuses attempt else statuses (attempt + 1 + r - 1))
        = statuses (attempt + (r + 1) - 1) := by
      rcases Nat.eq_zero_or_pos r with hr | hr
      · subst hr; norm_num
      · rw [if_neg (by omega)]; congr 1; omega
    simp only [rwbLoop]
    rw [if_neg hne, if_pos h0,
      ih (attempt + 1) (min (b * 2) 30) (statuses attempt)
        (fun i hi => by
          have h := hall (i + 1) (by omega)
          have he : attempt + (i + 1) = attempt + 1 + i := by omega
          rwa [he] at h)]
    simp only [sleepsFrom]
    rw [harg, if_neg (Nat.succ_ne_zero r)]

/-- A run of the loop on statuses that neither succeed, nor are retryable,
nor make `raise_for_status` raise (non-200 2xx, 1xx, 3xx): the loop
re-requests without sleeping and the last response survives the loop. -/
theorem rwbLoop_all_fallthrough (statuses : Nat → Nat) :
    ∀ (r attempt b s0 : Nat),
      (∀ i, i < r → statuses (attempt + i) ≠ 200
        ∧ retryableStatus (statuses (attempt + i)) = false
        ∧ raisesForStatus (statuses (attempt + i)) = false) →
      rwbLoop statuses r attempt b (Option.some s0) =
        ⟨r, [],
         rwbAfterLoop (Option.some (if r = 0 then s0 else statuses (attempt + r - 1)))⟩ := by
  intro r
  induction r with
  | zero => intro attempt b s0 _; simp [rwbLoop]
  | succ r ih =>
    intro attempt b s0 hall
    obtain ⟨hne, hretry, hraise⟩ := by simpa using hall 0 (Nat.succ_pos r)
    have harg : (if r = 0 then statuses attempt else statuses (attempt + 1 + r - 1))
        = statuses (attempt + (r + 1) - 1) := by
      rcases Nat.eq_zero_or_pos r with hr | hr
      · subst hr; norm_num
      · rw [if_neg (by omega)]; congr 1; omega
    simp only [rwbLoop]
    rw [if_neg hne, if_neg (by simp [hretry]), if_neg (by simp [hraise]),
      ih (attempt + 1) b (statuses attempt)
        (fun i hi => by
          have h := hall (i + 1) (by omega)
          have he : attempt + (i + 1) = attempt + 1 + i := by omega
          rwa [he] at h)]
    rw [harg, if_neg (Nat.succ_ne_zero r)]

/-! # Claim C3 — retry policy of `request_with_backoff`

The claim says retries happen on 429 *or any 5xx*, and that *every other
non-2xx* status raises immediately.  Both generalisations fail on the code:
the retry whitelist is exactly `(429, 500, 502, 503, 504)` — a 501 is not
retried but raises immediately — and a non-2xx status outside 400..599
(e.g. a 302 reaching the client) neither raises nor is returned at once:
the loop silently re-requests without sleeping and finally *returns* that
response.  -/

/-- Counterexample to C3 as stated: with every response a 501 (a 5xx), the
code raises after a single request instead of retrying up to the cap of 5
with backoff; with every response a 302 (a non-2xx), the code does not
raise immediately but issues all 5 requests and then returns the 302
response. -/
theorem c3_counterexample :
    requestWithBackoff (fun _ => 501) 5 = ⟨1, [], .raised 501⟩
    ∧ requestWithBackoff (fun _ => 501) 5 ≠ ⟨5, [1, 2, 4, 8, 16], .raised 501⟩
    ∧ requestWithBackoff (fun _ => 302) 5 = ⟨5, [], .returned 302⟩
    ∧ requestWithBackoff (fun _ => 302) 5 ≠ ⟨1, [], .raised 302⟩ := by
  refine ⟨rfl, by decide, rfl, by decide⟩

/-- C3 (amended): `request_with_backoff` returns at once on a 200; retries
on 429/500/502/503/504 up to `max_retries` attempts (default 5) with
backoff sleeps 1, 2, 4, ... seconds capped at 30, then raises an error
carrying the last status; raises immediately (zero retries) on any other
4xx/5xx status (e.g. 404 or 501); and on any other status (non-200 2xx,
1xx, 3xx) re-requests without sleeping and returns the last such response
after exhaustion. -/
theorem c3_retry_policy_amended (statuses : Nat → Nat) (m : Nat) :
    (1 ≤ m → statuses 0 = 200 →
      requestWithBackoff statuses m = ⟨1, [], .returned 200⟩)
    ∧ ((∀ i, i < m → retryableStatus (statuses i) = true) → 1 ≤ m →
      requestWithBackoff statuses m =
        ⟨m, (List.range m).map fun i => min (2 ^ i) 30, .raised (statuses (m - 1))⟩)
    ∧ (raisesForStatus (statuses 0) = true → retryableStatus (statuses 0) = false → 1 ≤ m →
      requestWithBackoff statuses m = ⟨1, [], .raised (statuses 0)⟩)
    ∧ ((∀ i, i < m → statuses i ≠ 200
          ∧ retryableStatus (statuses i) = false
          ∧ raisesForStatus (statuses i) = false) → 1 ≤ m →
      requestWithBackoff statuses m = ⟨m, [], .returned (statuses (m - 1))⟩) := by
  refine ⟨?_, ?_, ?_, ?_⟩
  · intro hm h200
    obtain ⟨r, rfl⟩ : ∃ r, m = r + 1 := ⟨m - 1, by omega⟩
    rw [requestWithBackoff]
    simp only [rwbLoop]
    rw [if_pos h200]
  · intro hall hm
    obtain ⟨r, rfl⟩ : ∃ r, m = r + 1 := ⟨m - 1, by omega⟩
    have h := rwbLoop_all_retryable statuses (r + 1) 0 1 0
      (fun i hi => by simpa using hall i hi)
    have hnone : requestWithBackoff statuses (r + 1)
        = rwbLoop statuses (r + 1) 0 1 (Option.some 0) := rfl
    rw [hnone, h, if_neg (Nat.succ_ne_zero r)]
    have hlast : retryableStatus (statuses (0 + (r + 1) - 1)) = true := by
      have h2 := hall r (by omega)
      have he : 0 + (r + 1) - 1 = r := by omega
      rw [he]; exact h2
    have hs := sleepsFrom_pow (r + 1) 0
    norm_num at hs
    simp only [rwbAfterLoop]
    rw [if_pos (retryable_raises hlast), hs]
    norm_num
  · intro hraise hretry hm
    obtain ⟨r, rfl⟩ : ∃ r, m = r + 1 := ⟨m - 1, by omega⟩
    have hne : ¬ statuses 0 = 200 := by
      intro h; rw [h] at hraise; exact absurd hraise (by decide)
    rw [requestWithBackoff]
    simp only [rwbLoop]
    rw [if_neg hne, if_neg (by simp [hretry]), if_pos hraise]
  · intro hall hm
    obtain ⟨r, rfl⟩ : ∃ r, m = r + 1 := ⟨m - 1, by omega⟩
    have h := rwbLoop_all_fallthrough statuses (r + 1) 0 1 0
      (fun i hi => by simpa using hall i hi)
    have hnone : requestWithBackoff statuses (r + 1)
        = rwbLoop statuses (r + 1) 0 1 (Option.some 0) := rfl
    rw [hnone, h, if_neg (Nat.succ_ne_zero r)]
    have hlast := hall r (by omega)
    have he : 0 + (r + 1) - 1 = r := by omega
    simp only [rwbAfterLoop, he]
    rw [if_neg (by simp [hlast.2.2])]
    norm_num

/-- Witness for `c3_retry_policy_amended`: all four clauses at concrete
status streams (200, all-429, 404, all-204) with the default cap 5. -/
theorem c3_retry_policy_witness :
    requestWithBackoff (fun _ => 200) 5 = ⟨1, [], .returned 200⟩
    ∧ requestWithBackoff (fun _ => 429) 5 =
        ⟨5, (List.range 5).map fun i => min (2 ^ i) 30, .raised 429⟩
    ∧ requestWithBackoff (fun _ => 404) 5 = ⟨1, [], .raised 404⟩
    ∧ requestWithBackoff (fun _ => 204) 5 = ⟨5, [], .returned 204⟩ :=
  ⟨(c3_retry_policy_amended (fun _ => 200) 5).1 (by decide) rfl,
   (c3_retry_policy_amended (fun _ => 429) 5).2.1 (fun _ _ => rfl) (by decide),
   (c3_retry_policy_amended (fun _ => 404) 5).2.2.1 rfl rfl (by decide),
   (c3_retry_policy_amended (fun _ => 204) 5).2.2.2
     (fun _ _ => ⟨by decide, rfl, rfl⟩) (by decide)⟩

/-! # Claim C10 — `request_with_backoff` needs `max_retries ≥ 1` -/

/-- C10: with `max_retries = 0` the loop never runs, so no request is
issued and the function neither returns a response nor raises an HTTP
error — it trips over the unbound local `resp`; with `max_retries ≥ 1` at
least one request is issued and the call either returns a response or
raises an HTTP error. -/
theorem c10_zero_retries_unbound (statuses : Nat → Nat) (m : Nat) :
    requestWithBackoff statuses 0 = ⟨0, [], .unboundLocal⟩
    ∧ (1 ≤ m → 1 ≤ (requestWithBackoff statuses m).requests
        ∧ (requestWithBackoff statuses m).outcome ≠ .unboundLocal) := by
  constructor
  · rfl
  · intro hm
    obtain ⟨r, rfl⟩ : ∃ r, m = r + 1 := ⟨m - 1, by omega⟩
    constructor
    · rw [requestWithBackoff]
      simp only [rwbLoop]
      split
      · simp
      · split
        · simp
        · split
          · simp
          · simp
    · have hnone : requestWithBackoff statuses (r + 1)
          = rwbLoop statuses (r + 1) 0 1 (Option.some 0) := rfl
      rw [hnone]
      exact rwbLoop_outcome_ne_unbound statuses (r + 1) 0 1 0

/-- Witness for `c10_zero_retries_unbound` at a constant-200 stream and
`max_retries = 3`. -/
theorem c10_zero_retries_unbound_witness :
    requestWithBackoff (fun _ => 200) 0 = ⟨0, [], .unboundLocal⟩
    ∧ (1 ≤ (requestWithBackoff (fun _ => 200) 3).requests
        ∧ (requestWithBackoff (fun _ => 200) 3).outcome ≠ .unboundLocal) :=
  ⟨(c10_zero_retries_unbound (fun _ => 200) 3).1,
   (c10_zero_retries_unbound (fun _ => 200) 3).2 (by decide)⟩

/-! # Lemmas about `flatten_item` -/

/-- Inversion of a successful `Except` bind. -/
theorem except_bind_ok {α β : Type} {x : Except PyErr α} {f : α → Except PyErr β} {b : β}
    (h : x >>= f = .ok b) : ∃ a, x = .ok a ∧ f a = .ok b := by
  cases x with
  | error e => simp [Bind.bind, Except.bind] at h
  | ok a => exact ⟨a, rfl, by simpa [Bind.bind, Except.bind] using h⟩

/-- Shape of any successful `flatten_item` result: the keys are exactly the
19 `fieldnames` in order, and the three `detail_*` entries hold exactly the
values computed by `detailFields`. -/
theorem flattenItem_ok_shape (item : PyVal) (detail : Option PyVal)
    (row : List (String × PyVal)) (h : flattenItem item detail = .ok row) :
    row.map Prod.fst = fieldnames
    ∧ ∃ dfields, detailFields detail = .ok dfields
      ∧ List.lookup "detail_description_html" row = some dfields.1
      ∧ List.lookup "detail_key_skills" row = some (optStrVal dfields.2.1)
      ∧ List.lookup "detail_professional_roles" row = some (optStrVal dfields.2.2) := by
  rw [flattenItem] at h
  obtain ⟨vsal, hsal, h⟩ := except_bind_ok h; try dsimp only at h
  obtain ⟨vemp, hemp, h⟩ := except_bind_ok h; try dsimp only at h
  obtain ⟨varea, harea, h⟩ := except_bind_ok h; try dsimp only at h
  obtain ⟨vsnip, hsnip, h⟩ := except_bind_ok h; try dsimp only at h
  obtain ⟨dfields, hdf, h⟩ := except_bind_ok h; try dsimp only at h
  obtain ⟨vid, hid, h⟩ := except_bind_ok h; try dsimp only at h
  obtain ⟨vname, hname, h⟩ := except_bind_ok h; try dsimp only at h
  obtain ⟨vurl, hurl, h⟩ := except_bind_ok h; try dsimp only at h
  obtain ⟨veid, heid, h⟩ := except_bind_ok h; try dsimp only at h
  obtain ⟨ven, hen, h⟩ := except_bind_ok h; try dsimp only at h
  obtain ⟨vaid, haid, h⟩ := except_bind_ok h; try dsimp only at h
  obtain ⟨van, han, h⟩ := except_bind_ok h; try dsimp only at h
  obtain ⟨vsf, hsf, h⟩ := except_bind_ok h; try dsimp only at h
  obtain ⟨vst, hst, h⟩ := except_bind_ok h; try dsimp only at h
  obtain ⟨vsc, hsc, h⟩ := except_bind_ok h; try dsimp only at h
  obtain ⟨vsg, hsg, h⟩ := except_bind_ok h; try dsimp only at h
  obtain ⟨vpub, hpub, h⟩ := except_bind_ok h; try dsimp only at h
  obtain ⟨vsch0, hsch0, h⟩ := except_bind_ok h; try dsimp only at h
  obtain ⟨vsch, hsch, h⟩ := except_bind_ok h; try dsimp only at h
  obtain ⟨vem0, hem0, h⟩ := except_bind_ok h; try dsimp only at h
  obtain ⟨vem, hem, h⟩ := except_bind_ok h; try dsimp only at h
  obtain ⟨vreq, hreq, h⟩ := except_bind_ok h; try dsimp only at h
  obtain ⟨vresp, hresp, h⟩ := except_bind_ok h; try dsimp only at h
  simp only [pure, Except.pure, Except.ok.injEq] at h
  subst h
  exact ⟨rfl, dfields, hdf, rfl, rfl, rfl⟩

/-! # Claim C7 — detail-fetch failures degrade to absent, record-scoped -/

/-- If every response within the attempt budget is a non-200 or a 200 with
an unparseable body, the detail-fetch loop returns `None` (never raising). -/
theorem gdLoop_failure (responses : Nat → Nat × Option PyVal) :
    ∀ (r attempt b : Nat),
      (∀ i, i < r → (responses (attempt + i)).1 ≠ 200 ∨ (responses (attempt + i)).2 = Option.none) →
      (gdLoop responses r attempt b).1 = Option.none := by
  intro r
  induction r with
  | zero => intro attempt b _; rfl
  | succ r ih =>
    intro attempt b hall
    have h0 : (responses attempt).1 ≠ 200 ∨ (responses attempt).2 = Option.none := by
      simpa using hall 0 (Nat.succ_pos r)
    simp only [gdLoop]
    by_cases h200 : (responses attempt).1 = 200
    · rw [if_pos h200]
      rcases h0 with h | h
      · exact absurd h200 h
      · simpa using h
    · rw [if_neg h200]
      by_cases hr : retryableStatus (responses attempt).1 = true
      · rw [if_pos hr]
        have h := ih (attempt + 1) (min (b * 2) 30) (fun i hi => by
          have h := hall (i + 1) (by omega)
          have he : attempt + (i + 1) = attempt + 1 + i := by omega
          rwa [he] at h)
        simpa using h
      · rw [if_neg hr]
  
/-- C7: (a) any failing detail fetch (non-200 such as 404, retry
exhaustion on 429/5xx, or unparseable 200 body) returns `None` instead of
raising; (b) a record flattened without detail has all three `detail_*`
fields `None`; (c) the record loop processes each record with its own
detail result and appends exactly one row and one count for it, leaving the
processing of the remaining records untouched; (d) the final `total` equals
the number of records, independently of any detail outcome. -/
theorem c7_detail_failure_degrades :
    (∀ (responses : Nat → Nat × Option PyVal) (m : Nat),
      (∀ i, i < m → (responses i).1 ≠ 200 ∨ (responses i).2 = Option.none) →
      (getDetailWithBackoff responses m).1 = Option.none)
    ∧ (∀ item row, flattenItem item Option.none = .ok row →
        List.lookup "detail_description_html" row = some PyVal.none
        ∧ List.lookup "detail_key_skills" row = some PyVal.none
        ∧ List.lookup "detail_professional_roles" row = some PyVal.none)
    ∧ (∀ (details : Bool) (fetch : String → Option PyVal) (item : PyVal)
          (rest : List PyVal) (d : Option PyVal) (row : List (String × PyVal))
          (res2 : List (List (String × PyVal)) × Nat),
        itemDetail details fetch item = .ok d →
        flattenItem item d = .ok row →
        processItems details fetch rest = .ok res2 →
        processItems details fetch (item :: rest) = .ok (row :: res2.1, res2.2 + 1))
    ∧ (∀ (details : Bool) (fetch : String → Option PyVal) (items : List PyVal)
          (res : List (List (String × PyVal)) × Nat),
        processItems details fetch items = .ok res → res.2 = items.length) := by
  refine ⟨?_, ?_, ?_, ?_⟩
  · intro responses m hall
    exact gdLoop_failure responses m 0 1 (fun i hi => by simpa using hall i hi)
  · intro item row h
    obtain ⟨-, dfields, hdf, h1, h2, h3⟩ := flattenItem_ok_shape item Option.none row h
    have hd : dfields = (PyVal.none, Option.none, Option.none) := by
      simpa [detailFields, Except.ok.injEq] using hdf.symm
    subst hd
    exact ⟨h1, h2, h3⟩
  · intro details fetch item rest d row res2 hd hrow hres
    obtain ⟨rows, total⟩ := res2
    simp only [processItems, hd, hrow, hres, bind, Except.bind, pure, Except.pure]
  · intro details fetch items
    induction items with
    | nil =>
      intro res h
      simp only [processItems, pure, Except.pure, Except.ok.injEq] at h
      rw [← h]
      rfl
    | cons item rest ih =>
      intro res h
      rw [processItems] at h
      obtain ⟨d, hd, h⟩ := except_bind_ok h; try dsimp only at h
      obtain ⟨row, hrow, h⟩ := except_bind_ok h; try dsimp only at h
      obtain ⟨res2, hres2, h⟩ := except_bind_ok h; try dsimp only at h
      obtain ⟨rows, total⟩ := res2
      simp only [pure, Except.pure, Except.ok.injEq] at h
      have ht := ih (rows, total) hres2
      rw [← h]
      simp only [List.length_cons]
      simpa using ht

/-- Witness for `c7_detail_failure_degrades`: a 404 detail endpoint, a
record without detail, and a one-record run with enrichment enabled whose
detail fetch fails — the row is still produced and counted. -/
theorem c7_detail_failure_degrades_witness :
    (getDetailWithBackoff (fun _ => (404, Option.none)) 5).1 = Option.none
    ∧ (List.lookup "detail_description_html"
          (fieldnames.map fun k => (k, PyVal.none)) = some PyVal.none
        ∧ List.lookup "detail_key_skills"
            (fieldnames.map fun k => (k, PyVal.none)) = some PyVal.none
        ∧ List.lookup "detail_professional_roles"
            (fieldnames.map fun k => (k, PyVal.none)) = some PyVal.none)
    ∧ processItems true (fun _ => Option.none) [.dict [("id", .str "7")]]
        = .ok ([("id", PyVal.str "7") :: (fieldnames.drop 1).map fun k => (k, PyVal.none)], 1)
    ∧ (([("id", PyVal.str "7") :: (fieldnames.drop 1).map fun k => (k, PyVal.none)], 1)
        : List (List (String × PyVal)) × Nat).2 = [PyVal.dict [("id", .str "7")]].length :=
  ⟨c7_detail_failure_degrades.1 (fun _ => (404, Option.none)) 5
      (fun i _ => Or.inl (by simp)),
   c7_detail_failure_degrades.2.1 (.dict []) (fieldnames.map fun k => (k, PyVal.none)) rfl,
   c7_detail_failure_degrades.2.2.1 true (fun _ => Option.none)
      (.dict [("id", .str "7")]) [] Option.none
      (("id", PyVal.str "7") :: (fieldnames.drop 1).map fun k => (k, PyVal.none))
      ([], 0) rfl rfl rfl,
   c7_detail_failure_degrades.2.2.2 true (fun _ => Option.none)
      [.dict [("id", .str "7")]]
      ([("id", PyVal.str "7") :: (fieldnames.drop 1).map fun k => (k, PyVal.none)], 1)
      (c7_detail_failure_degrades.2.2.1 true (fun _ => Option.none)
        (.dict [("id", .str "7")]) [] Option.none
        (("id", PyVal.str "7") :: (fieldnames.drop 1).map fun k => (k, PyVal.none))
        ([], 0) rfl rfl rfl)⟩

/-! # Claim C9 — FlatRow schema and detail serialization -/

/-- `detailFields` on a present, truthy dict detail. -/
theorem detailFields_some_dict (dkvs : List (String × PyVal)) (hne : dkvs ≠ []) :
    detailFields (Option.some (.dict dkvs)) =
      .ok (pyDictGet dkvs "description" .none,
        (match pyOr (pyDictGet dkvs "key_skills" .none) (.list []) with
          | .list xs => some (namesJoin xs)
          | _ => Option.none),
        (match pyOr (pyDictGet dkvs "professional_roles" .none) (.list []) with
          | .list xs => some (namesJoin xs)
          | _ => Option.none)) := by
  have htr : pyTruthy (.dict dkvs) = true := by
    cases dkvs with
    | nil => exact absurd rfl hne
    | cons p rest => rfl
  simp only [detailFields, htr, if_true, pyDotGet, bind, Except.bind, pure, Except.pure]

/-- C9: a successful `flatten_item` yields exactly the 19 fixed fields in
the fixed order; with no detail supplied all three `detail_*` values are
`None`; with a (truthy, dict) detail whose `key_skills` /
`professional_roles` (after `or []`) is a list, the corresponding field is
the single string joining `str(x.get("name"))` of its dict elements with
`", "`. -/
theorem c9_flat_row_schema (item : PyVal) (detail : Option PyVal)
    (row : List (String × PyVal)) (h : flattenItem item detail = .ok row) :
    row.map Prod.fst = fieldnames
    ∧ (detail = Option.none →
        List.lookup "detail_description_html" row = some PyVal.none
        ∧ List.lookup "detail_key_skills" row = some PyVal.none
        ∧ List.lookup "detail_professional_roles" row = some PyVal.none)
    ∧ (∀ dkvs xs, detail = Option.some (.dict dkvs) → dkvs ≠ [] →
        pyOr (pyDictGet dkvs "key_skills" .none) (.list []) = .list xs →
        List.lookup "detail_key_skills" row =
          some (.str (String.intercalate ", "
            (xs.filterMap fun x =>
              match x with
              | .dict skvs => some (pyStr (pyDictGet skvs "name" .none))
              | _ => Option.none))))
    ∧ (∀ dkvs xs, detail = Option.some (.dict dkvs) → dkvs ≠ [] →
        pyOr (pyDictGet dkvs "professional_roles" .none) (.list []) = .list xs →
        List.lookup "detail_professional_roles" row =
          some (.str (String.intercalate ", "
            (xs.filterMap fun x =>
              match x with
              | .dict skvs => some (pyStr (pyDictGet skvs "name" .none))
              | _ => Option.none)))) := by
  obtain ⟨hkeys, dfields, hdf, h1, h2, h3⟩ := flattenItem_ok_shape item detail row h
  refine ⟨hkeys, ?_, ?_, ?_⟩
  · intro hdet
    subst hdet
    have hd : dfields = (PyVal.none, Option.none, Option.none) := by
      simpa [detailFields, Except.ok.injEq] using hdf.symm
    subst hd
    exact ⟨h1, h2, h3⟩
  · intro dkvs xs hdet hne hks
    subst hdet
    rw [detailFields_some_dict dkvs hne] at hdf
    have hd : dfields.2.1 = some (namesJoin xs) := by
      have := hdf
      simp only [Except.ok.injEq] at this
      rw [← this, hks]
    rw [h2, hd]
    rfl
  · intro dkvs xs hdet hne hpr
    subst hdet
    rw [detailFields_some_dict dkvs hne] at hdf
    have hd : dfields.2.2 = some (namesJoin xs) := by
      have := hdf
      simp only [Except.ok.injEq] at this
      rw [← this, hpr]
    rw [h3, hd]
    rfl

/-- Witness for `c9_flat_row_schema`: a minimal record with a detail
carrying two key skills and no professional roles. -/
theorem c9_flat_row_schema_witness :
    ((fieldnames.take 16).map (fun k => (k, PyVal.none)) ++
        [("detail_description_html", PyVal.none),
         ("detail_key_skills", PyVal.str "SQL, Python"),
         ("detail_professional_roles", PyVal.str "")]).map Prod.fst = fieldnames
    ∧ List.lookup "detail_key_skills"
        ((fieldnames.take 16).map (fun k => (k, PyVal.none)) ++
          [("detail_description_html", PyVal.none),
           ("detail_key_skills", PyVal.str "SQL, Python"),
           ("detail_professional_roles", PyVal.str "")]) =
        some (.str (String.intercalate ", "
          (([PyVal.dict [("name", .str "SQL")], PyVal.dict [("name", .str "Python")]].filterMap
            fun x =>
              match x with
              | .dict skvs => some (pyStr (pyDictGet skvs "name" .none))
              | _ => Option.none)))) := by
  have H := c9_flat_row_schema (.dict [])
    (Option.some (.dict [("key_skills",
       .list [.dict [("name", .str "SQL")], .dict [("name", .str "Python")]])]))
    ((fieldnames.take 16).map (fun k => (k, PyVal.none)) ++
      [("detail_description_html", PyVal.none),
       ("detail_key_skills", PyVal.str "SQL, Python"),
       ("detail_professional_roles", PyVal.str "")]) rfl
  exact ⟨H.1,
    H.2.2.1 [("key_skills",
        .list [.dict [("name", .str "SQL")], .dict [("name", .str "Python")]])]
      [PyVal.dict [("name", .str "SQL")], PyVal.dict [("name", .str "Python")]]
      rfl (by simp) rfl⟩

/-! # Claims C4, C5, C6 — the pagination loop -/

/-- On a well-formed server (every page reports `pages = T` with an item
list), the tail loop without a cap fetches exactly the remaining
`T - page` pages and emits their items in order. -/
theorem iterTail_good (itemsFn : Nat → List PyVal) (T : Nat) :
    ∀ (k page : Nat), k = T - page → 1 ≤ page → page < T →
      iterTail (fun p => Option.some (mkPage (T : Int) (itemsFn p))) Option.none (T : Int) page
        = ⟨T - page, ((List.range' page (T - page)).map itemsFn).flatten, Option.none⟩ := by
  intro k
  induction k using Nat.strong_induction_on with
  | _ k ih =>
    intro page hk h1 hlt
    rw [iterTail]
    simp only [capExceeded]
    rw [if_neg (by simp)]
    have hitems : itemsOf (mkPage (T : Int) (itemsFn page)) = .ok (itemsFn page) := rfl
    rw [hitems]
    dsimp only
    by_cases hT : ((page : Int)) + 1 ≥ (T : Int)
    · rw [if_pos hT]
      have h2 : T - page = 1 := by omega
      rw [h2]
      have hr : List.range' page 1 = [page] := rfl
      rw [hr]
      simp
    · rw [if_neg hT]
      have hrec := ih (T - (page + 1)) (by omega) (page + 1) rfl (by omega) (by omega)
      rw [hrec]
      have h2 : T - page = (T - (page + 1)) + 1 := by omega
      rw [h2]
      have hr : List.range' page ((T - (page + 1)) + 1)
          = page :: List.range' (page + 1) (T - (page + 1)) := rfl
      rw [hr]
      rfl

/-- C4: with no max-page cap and a server reporting `pages = T` on every
page, the loop for one (area, window) issues exactly `T` requests (exactly
1 when `T = 0`, in which case — the zero-result response carrying no items —
nothing is emitted), and emits exactly the concatenation of the pages'
item lists in ascending page order. -/
theorem c4_pagination_requests (itemsFn : Nat → List PyVal) (T : Nat)
    (hz : T = 0 → itemsFn 0 = []) :
    fetchArea (fun p => Option.some (mkPage (T : Int) (itemsFn p))) Option.none
      = ⟨if T = 0 then 1 else T, ((List.range T).map itemsFn).flatten, Option.none⟩ := by
  rw [fetchArea]
  simp only [capExceeded]
  rw [if_neg (by simp)]
  have hitems : itemsOf (mkPage (T : Int) (itemsFn 0)) = .ok (itemsFn 0) := rfl
  have hpages : totalPagesOf (mkPage (T : Int) (itemsFn 0)) = (T : Int) := rfl
  rw [hitems, hpages]
  dsimp only
  match T, hz with
  | 0, hz =>
    have hc : ((0 : Int)) + 1 ≥ ((0 : Nat) : Int) := by norm_num
    rw [if_pos hc, hz rfl]
    rfl
  | 1, _ =>
    have hc : ((0 : Int)) + 1 ≥ ((1 : Nat) : Int) := by norm_num
    rw [if_pos hc]
    have hr : List.range 1 = [0] := rfl
    rw [hr]
    simp
  | (t + 2), _ =>
    have hc : ¬ (((0 : Int)) + 1 ≥ ((t + 2 : Nat) : Int)) := by push_cast; omega
    rw [if_neg hc]
    rw [iterTail_good itemsFn (t + 2) (t + 1) 1 rfl (by omega) (by omega)]
    have hrange : List.range (t + 2) = 0 :: List.range' 1 (t + 1) := by
      rw [List.range_eq_range']
      rfl
    rw [hrange, if_neg (Nat.succ_ne_zero (t + 1))]
    rfl

/-- Witness for `c4_pagination_requests`: `pages = 3` with one item per
page — three requests, items in page order. -/
theorem c4_pagination_requests_witness :
    fetchArea (fun p => Option.some (mkPage ((3 : Nat) : Int) [PyVal.int (p : Int)])) Option.none
      = ⟨if (3 : Nat) = 0 then 1 else 3,
         ((List.range 3).map fun p => [PyVal.int (p : Int)]).flatten, Option.none⟩ :=
  c4_pagination_requests (fun p => [PyVal.int (p : Int)]) 3 (by omega)

/-- Under a max-page cap `C`, the tail loop starting at `page` issues at
most `C + 1 - page` further requests, whatever the server returns. -/
theorem iterTail_cap_bound (server : Nat → Option PyVal) (T C : Int) :
    ∀ (k page : Nat), k = (T - (page : Int)).toNat →
      (iterTail server (Option.some C) T page).requests ≤ (C + 1 - (page : Int)).toNat := by
  intro k
  induction k using Nat.strong_induction_on with
  | _ k ih =>
    intro page hk
    rw [iterTail]
    by_cases hcap : capExceeded (Option.some C) page = true
    · rw [if_pos hcap]
      simp
    · rw [if_neg hcap]
      have hpc : (page : Int) ≤ C := by
        simp only [capExceeded, decide_eq_true_eq] at hcap
        omega
      cases hs : server page with
      | none =>
        try rw [hs]
        dsimp only
        omega
      | some data =>
        try rw [hs]
        dsimp only
        cases hio : itemsOf data with
        | error e =>
          try rw [hio]
          dsimp only
          omega
        | ok its =>
          try rw [hio]
          dsimp only
          by_cases hT : ((page : Int)) + 1 ≥ T
          · rw [if_pos hT]
            dsimp only
            omega
          · rw [if_neg hT]
            dsimp only
            have hb := ih ((T - ((page + 1 : Nat) : Int)).toNat) (by push_cast; omega)
              (page + 1) rfl
            push_cast at hb ⊢
            omega

/-- C5: for any cap `C ≥ 0` and any server behaviour whatsoever, one
(area, window) run issues at most `C + 1` page requests; and with a cap of
0, page 0 is still fetched — exactly one request is issued. -/
theorem c5_max_page_cap (server : Nat → Option PyVal) (C : Int) (h : 0 ≤ C) :
    (fetchArea server (Option.some C)).requests ≤ (C + 1).toNat
    ∧ (fetchArea server (Option.some 0)).requests = 1 := by
  constructor
  · rw [fetchArea]
    have hcap : capExceeded (Option.some C) 0 = false := by
      simp only [capExceeded, decide_eq_false_iff_not]
      omega
    rw [hcap, if_neg (by simp)]
    cases hs : server 0 with
    | none =>
      try rw [hs]
      dsimp only
      omega
    | some data =>
      try rw [hs]
      dsimp only
      cases hio : itemsOf data with
      | error e =>
        try rw [hio]
        dsimp only
        omega
      | ok its =>
        try rw [hio]
        dsimp only
        by_cases hT : ((0 : Int)) + 1 ≥ totalPagesOf data
        · rw [if_pos hT]
          dsimp only
          omega
        · rw [if_neg hT]
          dsimp only
          have hb := iterTail_cap_bound server (totalPagesOf data) C
            ((totalPagesOf data - ((1 : Nat) : Int)).toNat) 1 rfl
          push_cast at hb ⊢
          omega
  · rw [fetchArea]
    rw [show capExceeded (Option.some 0) 0 = false from rfl, if_neg (by simp)]
    cases hs : server 0 with
    | none =>
      try rw [hs]
      rfl
    | some data =>
      try rw [hs]
      dsimp only
      cases hio : itemsOf data with
      | error e =>
        try rw [hio]
        rfl
      | ok its =>
        try rw [hio]
        dsimp only
        by_cases hT : ((0 : Int)) + 1 ≥ totalPagesOf data
        · rw [if_pos hT]
        · rw [if_neg hT]
          rw [iterTail]
          rw [show capExceeded (Option.some 0) 1 = true from rfl, if_pos rfl]

/-- Witness for `c5_max_page_cap`: a server always reporting 100 pages,
cap 3 — at most 4 requests; cap 0 — exactly one request. -/
theorem c5_max_page_cap_witness :
    (fetchArea (fun p => Option.some (mkPage 100 [PyVal.int (p : Int)])) (Option.some 3)).requests
        ≤ ((3 : Int) + 1).toNat
    ∧ (fetchArea (fun p => Option.some (mkPage 100 [PyVal.int (p : Int)])) (Option.some 0)).requests
        = 1 :=
  c5_max_page_cap (fun p => Option.some (mkPage 100 [PyVal.int (p : Int)])) 3 (by norm_num)

/-! ## Claim C6 — malformed responses -/

/-- Counterexample to C6 as stated.  First conjunct: a response body that
is valid JSON but not the expected object shape (a JSON array) makes the
driver raise an uncaught `AttributeError` at `data.get("items", [])` —
a fatal error, not an empty result.  Second conjunct: a missing `pages`
field is treated as zero pages, but the result for that (area, window) is
not empty — the items of the already-fetched page 0 are still emitted. -/
theorem c6_counterexample :
    fetchArea (fun _ => Option.some (.list [])) Option.none
      = ⟨1, [], Option.some (.attributeError "get")⟩
    ∧ fetchArea (fun _ => Option.some (.dict [("items", .list [.str "x"])])) Option.none
      = ⟨1, [.str "x"], Option.none⟩ :=
  ⟨rfl, rfl⟩

/-- C6 (amended): if the page-0 body is a JSON *object* whose `pages`
field is missing or non-numeric (and whose `items` field is iterable),
the driver treats the total as zero pages: it issues no further request,
raises no error, and emits just the items of the page it already fetched
(an empty result whenever that page carries no items).  A body that is not
a JSON object instead raises an uncaught error (see
`c6_counterexample`). -/
theorem c6_malformed_pages_amended (server : Nat → Option PyVal)
    (kvs : List (String × PyVal)) (its : List PyVal)
    (h0 : server 0 = Option.some (.dict kvs))
    (hpages : List.lookup "pages" kvs = Option.none
      ∨ ∃ v, List.lookup "pages" kvs = Option.some v ∧ pyToInt v = Option.none)
    (hitems : itemsOf (.dict kvs) = .ok its) :
    fetchArea server Option.none = ⟨1, its, Option.none⟩ := by
  rw [fetchArea]
  rw [show capExceeded Option.none 0 = false from rfl, if_neg (by simp)]
  rw [h0]
  have hT : totalPagesOf (.dict kvs) = 0 := by
    rcases hpages with h | ⟨v, hv, hvi⟩
    · simp [totalPagesOf, h]
    · simp [totalPagesOf, hv, hvi]
  simp only
  rw [hitems, hT]
  simp only
  rw [if_pos (by norm_num)]

/-- Witness for `c6_malformed_pages_amended`: `pages = "abc"` (non-numeric)
with an empty item list — one request, empty result, no error. -/
theorem c6_malformed_pages_amended_witness :
    fetchArea (fun _ => Option.some (.dict [("pages", .str "abc"), ("items", .list [])]))
        Option.none
      = ⟨1, [], Option.none⟩ :=
  c6_malformed_pages_amended
    (fun _ => Option.some (.dict [("pages", .str "abc"), ("items", .list [])]))
    [("pages", .str "abc"), ("items", .list [])] [] rfl
    (Or.inr ⟨.str "abc", rfl, by decide⟩) rfl

/-! # Claim C2 — the window planner -/

/-- Full specification of the window loop, relative to the running cursor:
the produced windows start at `cur`, are contiguous, non-overlapping and
ascending, stay inside `[cur, e]`, are at most `max 1 w` days wide — and
exactly `max 1 w` wide except possibly the one ending at `e` — and cover
`[cur, e]` exactly. -/
theorem windowsLoop_spec (w e : Int) :
    ∀ (k : Nat) (cur : Int), k = (e + 1 - cur).toNat → cur ≤ e →
      (∃ tl, windowsLoop e w cur = (cur, min (cur + max 1 w - 1) e) :: tl)
      ∧ List.Chain' (fun p q => q.1 = p.2 + 1) (windowsLoop e w cur)
      ∧ List.Pairwise (fun p q => p.2 < q.1) (windowsLoop e w cur)
      ∧ (∀ p ∈ windowsLoop e w cur,
          cur ≤ p.1 ∧ p.1 ≤ p.2 ∧ p.2 ≤ e ∧ p.2 - p.1 + 1 ≤ max 1 w)
      ∧ (∀ p ∈ windowsLoop e w cur, p.2 < e → p.2 - p.1 + 1 = max 1 w)
      ∧ (∀ x : Int, (cur ≤ x ∧ x ≤ e) ↔ ∃ p ∈ windowsLoop e w cur, p.1 ≤ x ∧ x ≤ p.2) := by
  intro k
  induction k using Nat.strong_induction_on with
  | _ k ih =>
    intro cur hk hce
    have hwd : 1 ≤ max 1 w := le_max_left 1 w
    set wEnd := min (cur + max 1 w - 1) e with hwEnd
    have hA : wEnd ≤ cur + max 1 w - 1 := min_le_left _ _
    have hB : wEnd ≤ e := min_le_right _ _
    have hC : wEnd = cur + max 1 w - 1 ∨ wEnd = e := min_choice _ _
    have hcw : cur ≤ wEnd := le_min (by omega) hce
    have hunf : windowsLoop e w cur = (cur, wEnd) :: windowsLoop e w (wEnd + 1) := by
      rw [windowsLoop, if_pos hce]
    by_cases hstop : e < wEnd + 1
    · have htl : windowsLoop e w (wEnd + 1) = [] := by
        rw [windowsLoop, if_neg (by omega)]
      rw [hunf, htl]
      refine ⟨⟨[], rfl⟩, by simp, by simp, ?_, ?_, ?_⟩
      · intro p hp
        simp only [List.mem_singleton] at hp
        subst hp
        exact ⟨le_refl _, hcw, hB, by omega⟩
      · intro p hp hpe
        simp only [List.mem_singleton] at hp
        subst hp
        simp only at hpe
        omega
      · intro x
        simp only [List.mem_singleton]
        constructor
        · rintro ⟨hx1, hx2⟩
          exact ⟨(cur, wEnd), rfl, by simpa using hx1, by simp; omega⟩
        · rintro ⟨p, rfl, hx1, hx2⟩
          simp only at hx1 hx2
          exact ⟨hx1, by omega⟩
    · have hce2 : wEnd + 1 ≤ e := by omega
      have ihk := ih ((e + 1 - (wEnd + 1)).toNat) (by omega) (wEnd + 1) rfl hce2
      obtain ⟨⟨tl2, htl2⟩, hch, hpw, hbnd, hwid, hcov⟩ := ihk
      rw [hunf]
      refine ⟨⟨_, rfl⟩, ?_, ?_, ?_, ?_, ?_⟩
      · rw [List.chain'_cons']
        refine ⟨?_, hch⟩
        intro q hq
        rw [htl2] at hq
        simp only [List.head?_cons, Option.mem_def, Option.some.injEq] at hq
        rw [← hq]
      · rw [List.pairwise_cons]
        refine ⟨?_, hpw⟩
        intro q hq
        have h1 := (hbnd q hq).1
        simp only
        omega
      · intro p hp
        rcases List.mem_cons.mp hp with rfl | hp
        · exact ⟨le_refl _, hcw, hB, by omega⟩
        · obtain ⟨h1, h2, h3, h4⟩ := hbnd p hp
          exact ⟨by omega, h2, h3, h4⟩
      · intro p hp hpe
        rcases List.mem_cons.mp hp with rfl | hp
        · simp only at hpe ⊢
          omega
        · exact hwid p hp hpe
      · intro x
        constructor
        · rintro ⟨hx1, hx2⟩
          by_cases hxw : x ≤ wEnd
          · exact ⟨(cur, wEnd), List.mem_cons_self _ _, by simpa using hx1, by simpa using hxw⟩
          · obtain ⟨p, hp, hx⟩ := (hcov x).mp ⟨by omega, hx2⟩
            exact ⟨p, List.mem_cons_of_mem _ hp, hx⟩
        · rintro ⟨p, hp, hx1, hx2⟩
          rcases List.mem_cons.mp hp with rfl | hp
          · simp only at hx1 hx2
            exact ⟨hx1, by omega⟩
          · obtain ⟨h1, h2, h3, h4⟩ := hbnd p hp
            exact ⟨by omega, by omega⟩

/-- C2: for `overall_start ≤ overall_end` the planner produces windows
that start at `overall_start`, are contiguous (each start = previous end +
1 day), non-overlapping and ascending, each at most `max 1 window_days`
wide and exactly that wide except the final one, and whose union is
exactly `[overall_start, overall_end]`; in particular three consecutive
days with one-day windows (scenario A: 2025-09-01 .. 2025-09-03 as
ordinals 739495 .. 739497) give exactly three one-day windows. -/
theorem c2_window_planner (s e w : Int) (h : s ≤ e) :
    (∃ tl, buildWindows s e w = (s, min (s + max 1 w - 1) e) :: tl)
    ∧ List.Chain' (fun p q => q.1 = p.2 + 1) (buildWindows s e w)
    ∧ List.Pairwise (fun p q => p.2 < q.1) (buildWindows s e w)
    ∧ (∀ p ∈ buildWindows s e w,
        s ≤ p.1 ∧ p.1 ≤ p.2 ∧ p.2 ≤ e ∧ p.2 - p.1 + 1 ≤ max 1 w)
    ∧ (∀ p ∈ buildWindows s e w, p.2 < e → p.2 - p.1 + 1 = max 1 w)
    ∧ (∀ x : Int, (s ≤ x ∧ x ≤ e) ↔ ∃ p ∈ buildWindows s e w, p.1 ≤ x ∧ x ≤ p.2)
    ∧ buildWindows 739495 739497 1
        = [(739495, 739495), (739496, 739496), (739497, 739497)] := by
  have hmain := windowsLoop_spec w e ((e + 1 - s).toNat) s rfl h
  have hex : buildWindows 739495 739497 1
      = [(739495, 739495), (739496, 739496), (739497, 739497)] := by
    rw [buildWindows, windowsLoop]
    norm_num
    rw [windowsLoop]
    norm_num
    rw [windowsLoop]
    norm_num
    rw [windowsLoop]
    norm_num
  exact ⟨hmain.1, hmain.2.1, hmain.2.2.1, hmain.2.2.2.1, hmain.2.2.2.2.1,
    hmain.2.2.2.2.2, hex⟩

/-- Witness for `c2_window_planner`: scenario A itself. -/
theorem c2_window_planner_witness :
    buildWindows 739495 739497 1
      = [(739495, 739495), (739496, 739496), (739497, 739497)] :=
  (c2_window_planner 739495 739497 1 (by norm_num)).2.2.2.2.2.2

/-! # Claim C8 — configuration errors stop the run before any work -/

/-- C8: an empty parsed area list, or the last-N-days shorthand combined
with an explicit date bound, makes `main` exit with code 2 before any page
request is issued (for every possible server) and before any record is
collected. -/
theorem c8_config_errors (server : String → Nat → Option PyVal) (maxPages : Option Int)
    (areasArg : String) (lastDays : Option Int) (dateFrom dateTo : Option String) :
    (parseAreas areasArg = [] →
      mainModel server maxPages areasArg lastDays dateFrom dateTo
        = ⟨Option.some 2, 0, []⟩)
    ∧ (lastDays.isSome = true →
      (truthyStrOpt dateFrom || truthyStrOpt dateTo) = true →
      mainModel server maxPages areasArg lastDays dateFrom dateTo
        = ⟨Option.some 2, 0, []⟩) := by
  constructor
  · intro hempty
    simp [mainModel, hempty]
  · intro hld hdt
    by_cases hempty : (parseAreas areasArg).isEmpty
    · simp [mainModel, hempty]
    · simp [mainModel, hempty, hld, hdt]

/-- Witness for `c8_config_errors`: an all-blank area list, and
`--last-days` together with `--date-from`. -/
theorem c8_config_errors_witness :
    mainModel (fun _ _ => Option.none) Option.none " , " Option.none Option.none Option.none
      = ⟨Option.some 2, 0, []⟩
    ∧ mainModel (fun _ _ => Option.none) Option.none "1" (Option.some 14)
        (Option.some "2025-09-01") Option.none
      = ⟨Option.some 2, 0, []⟩ :=
  ⟨(c8_config_errors (fun _ _ => Option.none) Option.none " , "
      Option.none Option.none Option.none).1 (by decide),
   (c8_config_errors (fun _ _ => Option.none) Option.none "1" (Option.some 14)
      (Option.some "2025-09-01") Option.none).2 rfl rfl⟩

/-! # Claim C1 — the per-page request is never issued: unbound filter names

`iter_vacancies` is a module-level function, not a closure over `main`'s
locals, so the names `args_employment` and `args_schedule` it reads on
lines 184 and 187 are resolved against the module scope — where they are
never bound (`main` assigns them as ordinary locals, lines 289-294).
Building the `params` dict for *any* page therefore raises
`NameError: name 'args_employment' is not defined` before the request is
issued: the claimed request with encoded criteria never happens, on any
configuration. -/

/-- C1 (code bug): in the shipped module scope, the parameter-building
step of every `iter_vacancies` iteration — for every search text, area,
page size, page number and date bounds — raises `NameError` for
`args_employment` instead of producing the query parameters. -/
theorem c1_unbound_filter_names (queryText area : String) (perPage : Int) (page : Nat)
    (dateFrom dateTo : Option String) :
    iterVacanciesBuildParams hhModuleScope queryText area perPage page dateFrom dateTo
      = .error (.nameError "args_employment") := rfl

end HHFetch
